import Mathlib

/-!
Shallow embedding of the FiveM server auto-update script (the update
orchestration flow of `main` together with its `run` helper) and of the
build-index resolver shared with the deployment script.

The update flow is modelled as a function from an environment — a record of
success/failure outcomes for each external operation, plus the raw index
document returned by the build index — to the trace of external operations
the script performs and the process exit code.  The `run` helper catches a
failing shell command, logs it, and calls `process.exit(1)` directly, which
is reflected by branches that terminate the trace with exit code 1 without
reaching the surrounding try/catch.  Errors thrown outside the try/catch
(the payload-clearing `fs` calls) reject the `main()` promise, which is
handled by `main().catch(err => console.error(err))`: the error is printed
and the process exits with code 0.
-/

namespace FivemUpdate

/-- Externally visible operations performed by a run of the update script,
each tagged with whether the underlying operation succeeded.  `svcStart`
carries a flag saying whether the start was the failure-recovery restart
(inside the catch block) or the normal final restart. -/
inductive Event where
  | svcStop (ok : Bool)
  | rmDir (ok : Bool)
  | rmFile (ok : Bool)
  | httpIndex (ok : Bool)
  | matchBuild (found : Bool)
  | download (ok : Bool)
  | extract (ok : Bool)
  | unlinkArchive (ok : Bool)
  | chown (ok : Bool)
  | svcStart (recovery : Bool) (ok : Bool)
  | outcome (success : Bool)
deriving DecidableEq, Repr

/-- Success/failure oracle for every fallible external operation of one run. -/
structure Flags where
  stopOk : Bool
  alpineExists : Bool
  rmAlpineOk : Bool
  runShExists : Bool
  rmRunShOk : Bool
  indexOk : Bool
  downloadOk : Bool
  extractOk : Bool
  unlinkOk : Bool
  chownOk : Bool
  startOk : Bool
deriving DecidableEq, Repr

/-- A run environment: the operation oracle plus the document served by the
remote build index (which determines whether version resolution finds a
build token). -/
structure Env where
  flags : Flags
  indexDoc : List Char

/-! Resolver: `response.data.match(/href="([0-9-a-f]{40,}\/)"/)[1]`. -/

/-- The literal `href="` that anchors the build-token pattern. -/
def hrefMark : List Char := ['h', 'r', 'e', 'f', '=', '"']

/-- Character class `[0-9-a-f]` of the source regex: digits, the hyphen,
and the letters a through f. -/
def isTokenChar (c : Char) : Bool :=
  (decide ('0' ≤ c) && decide (c ≤ '9')) || c == '-' ||
    (decide ('a' ≤ c) && decide (c ≤ 'f'))

/-- Maximal run of `[0-9-a-f]` characters at the front of a string, together
with the remainder. -/
def takeRun : List Char → List Char × List Char
  | [] => ([], [])
  | c :: cs =>
    if isTokenChar c then (c :: (takeRun cs).1, (takeRun cs).2)
    else ([], c :: cs)

/-- Strips an exact literal from the front of a string, or fails. -/
def dropLit : List Char → List Char → Option (List Char)
  | [], s => some s
  | _ :: _, [] => none
  | a :: ps, b :: ss => if a == b then dropLit ps ss else none

/-- One attempt of the regex at a fixed start position: the literal
`href="`, then at least 40 characters from `[0-9-a-f]` (greedy, and since
neither `/` nor `"` belongs to the class the maximal run is the only
candidate), then `/"`.  Returns capture group 1, the token with its
trailing slash. -/
def matchHere (s : List Char) : Option (List Char) :=
  match dropLit hrefMark s with
  | none => none
  | some r =>
    if 40 ≤ (takeRun r).1.length then
      match (takeRun r).2 with
      | '/' :: '"' :: _ => some ((takeRun r).1 ++ ['/'])
      | _ => none
    else none

/-- JavaScript `String.prototype.match` without the global flag: the
leftmost position where the pattern matches, here returning capture
group 1 (`latestBuild` in the source). -/
def firstMatch : List Char → Option (List Char)
  | [] => none
  | c :: cs =>
    match matchHere (c :: cs) with
    | some g => some g
    | none => firstMatch cs

/-- The fixed build-index URL of the configuration block. -/
def latestUrlChars : List Char :=
  "https://runtime.fivem.net/artifacts/fivem/build_proot_linux/master/".toList

/-- The fixed archive filename appended to the resolved build path. -/
def archiveName : List Char := "fx.tar.xz".toList

/-- The download URL the script builds:
`` `${LATEST_URL}${latestBuild}fx.tar.xz` ``, defined when resolution
found a build token. -/
def resolveUrl (doc : List Char) : Option (List Char) :=
  (firstMatch doc).map (fun g => latestUrlChars ++ g ++ archiveName)

/-! A second resolver following the specification's words, used only to
compare the source behaviour with the spec for the resolver claim. -/

/-- Lowercase hexadecimal digit, as the spec words the token class. -/
def isLowerHex (c : Char) : Bool :=
  (decide ('0' ≤ c) && decide (c ≤ '9')) || (decide ('a' ≤ c) && decide (c ≤ 'f'))

/-- Maximal run of lowercase-hex characters at the front of a string. -/
def takeHexRun : List Char → List Char × List Char
  | [] => ([], [])
  | c :: cs =>
    if isLowerHex c then (c :: (takeHexRun cs).1, (takeHexRun cs).2)
    else ([], c :: cs)

/-- Follows the spec's words at one position: a 40-or-more character
lowercase hexadecimal token followed by a slash. -/
def specHexHere (s : List Char) : Option (List Char) :=
  if 40 ≤ (takeHexRun s).1.length then
    match (takeHexRun s).2 with
    | '/' :: _ => some ((takeHexRun s).1 ++ ['/'])
    | _ => none
  else none

/-- Follows the spec's words: extract the first path segment that is a
40-or-more character lowercase hexadecimal token followed by a slash;
none when no such token is present. -/
def specResolveHex : List Char → Option (List Char)
  | [] => none
  | c :: cs =>
    match specHexHere (c :: cs) with
    | some g => some g
    | none => specResolveHex cs

/-! The update flow of `main` (part_000 lines 34-96). -/

/-- Payload clearing (lines 44-48): remove the `alpine` tree if it exists,
then remove `run.sh` if it exists.  Returns the trace of removal attempts
and whether an `fs` call threw (which rejects `main()`). -/
def clearStale (alpineExists rmAlpineOk runShExists rmRunShOk : Bool) :
    List Event × Bool :=
  if alpineExists && !rmAlpineOk then ([Event.rmDir false], true)
  else
    let t := if alpineExists then [Event.rmDir true] else []
    if runShExists && !rmRunShOk then (t ++ [Event.rmFile false], true)
    else (t ++ (if runShExists then [Event.rmFile true] else []), false)

/-- The catch block (lines 75-80): attempt `systemctl start fivem` through
`run` (a failing start makes `run` exit with code 1; a successful one is
followed by `process.exit(1)`), so either way the run ends with exit
code 1 after exactly one recovery start attempt. -/
def recoverPath (t : List Event) (f : Flags) : List Event × Nat :=
  (t ++ [Event.svcStart true f.startOk], 1)

/-- The whole `main` flow given the operation oracle and whether the regex
found a build token in the index document.  Steps through service stop
(line 41), payload clearing (44-48), index fetch and token match (53-54),
archive download (56-69), extraction (72), archive removal (73), ownership
fix (84) and service start (88), with the failure handling of `run`
(immediate exit 1), of the try/catch (recovery restart then exit 1), and of
the top-level promise catch (print and exit 0). -/
def mainFrom (f : Flags) (found : Bool) : List Event × Nat :=
  if !f.stopOk then ([Event.svcStop false], 1)
  else
    let c := clearStale f.alpineExists f.rmAlpineOk f.runShExists f.rmRunShOk
    let t0 := Event.svcStop true :: c.1
    if c.2 then (t0, 0)
    else if !f.indexOk then recoverPath (t0 ++ [Event.httpIndex false]) f
    else if !found then
      recoverPath (t0 ++ [Event.httpIndex true, Event.matchBuild false]) f
    else if !f.downloadOk then
      recoverPath
        (t0 ++ [Event.httpIndex true, Event.matchBuild true, Event.download false]) f
    else
      let t1 := t0 ++ [Event.httpIndex true, Event.matchBuild true, Event.download true]
      if !f.extractOk then (t1 ++ [Event.extract false], 1)
      else if !f.unlinkOk then
        recoverPath (t1 ++ [Event.extract true, Event.unlinkArchive false]) f
      else
        let t2 := t1 ++ [Event.extract true, Event.unlinkArchive true]
        if !f.chownOk then (t2 ++ [Event.chown false], 1)
        else if !f.startOk then
          (t2 ++ [Event.chown true, Event.svcStart false false], 1)
        else
          (t2 ++ [Event.chown true, Event.svcStart false true, Event.outcome true], 0)

/-- One run of the update script on an environment: version resolution
succeeds exactly when the regex finds a token in the served index
document. -/
def updateMain (env : Env) : List Event × Nat :=
  mainFrom env.flags (firstMatch env.indexDoc).isSome

/-! Trace predicates. -/

/-- Events that mutate the payload (removal of the directory tree or the
launcher entry point, or extraction over the target). -/
def mutatesPayload : Event → Bool
  | Event.rmDir _ => true
  | Event.rmFile _ => true
  | Event.extract _ => true
  | _ => false

/-- A completed, successful service stop. -/
def stopDone : Event → Bool
  | Event.svcStop true => true
  | _ => false

/-- Any service start attempt. -/
def isStart : Event → Bool
  | Event.svcStart _ _ => true
  | _ => false

/-- A recovery (catch-block) service start attempt. -/
def isRecStart : Event → Bool
  | Event.svcStart true _ => true
  | _ => false

/-- The failures that transfer control to the catch block. -/
def recoveryTrigger : Event → Bool
  | Event.httpIndex false => true
  | Event.matchBuild false => true
  | Event.download false => true
  | Event.unlinkArchive false => true
  | _ => false

/-- Events after which a service start is legitimate: a completed ownership
fix, or a failure that puts the run on the recovery path. -/
def startGate (e : Event) : Bool :=
  (match e with
   | Event.chown true => true
   | _ => false) || recoveryTrigger e

/-- A successful extraction. -/
def extractDone : Event → Bool
  | Event.extract true => true
  | _ => false

/-- Any attempt to delete the downloaded archive. -/
def isUnlink : Event → Bool
  | Event.unlinkArchive _ => true
  | _ => false

/-- An emitted end-of-run outcome report. -/
def isOutcome : Event → Bool
  | Event.outcome _ => true
  | _ => false

/-- `checkPrec p q seen t` holds when every `q`-event of `t` is strictly
preceded by some `p`-event (given that `seen` records whether a `p`-event
already occurred before `t`). -/
def checkPrec (p q : Event → Bool) : Bool → List Event → Bool
  | _, [] => true
  | seen, e :: es => (!q e || seen) && checkPrec p q (seen || p e) es

/-- The two service-controller operations. -/
inductive SvcCall where
  | stop
  | start
deriving DecidableEq, Repr

/-- Projects an event onto the service-controller call it performs. -/
def svcCallOf : Event → Option SvcCall
  | Event.svcStop _ => some SvcCall.stop
  | Event.svcStart _ _ => some SvcCall.start
  | _ => none

/-- The sequence of service-controller calls a trace performs. -/
def svcCalls (t : List Event) : List SvcCall := t.filterMap svcCallOf

/-! Sample index documents and run environments used as concrete cases. -/

/-- An index document holding one 40-character lowercase-hex build token. -/
def docSample : List Char := hrefMark ++ List.replicate 40 'a' ++ ['/', '"']

/-- An index document whose only candidate token is 40 hyphens: it contains
no lowercase hexadecimal run of length 40, yet the source regex class
`[0-9-a-f]` accepts it. -/
def docHyphen : List Char := hrefMark ++ List.replicate 40 '-' ++ ['/', '"']

/-- Oracle in which every external operation succeeds and both stale
payload entries exist. -/
def flagsAllOk : Flags :=
  ⟨true, true, true, true, true, true, true, true, true, true, true⟩

/-- A fully successful run. -/
def envAllOk : Env := ⟨flagsAllOk, docSample⟩

/-- A run whose archive download fails (fetch failure). -/
def envFetchFail : Env :=
  ⟨⟨true, true, true, true, true, true, false, true, true, true, true⟩, docSample⟩

/-- A run whose archive extraction fails after a successful fetch. -/
def envExtractFail : Env :=
  ⟨⟨true, true, true, true, true, true, true, false, true, true, true⟩, docSample⟩

/-- A run in which removing the stale payload directory tree throws. -/
def envClearFail : Env :=
  ⟨⟨true, true, false, true, true, true, true, true, true, true, true⟩, docSample⟩

/-- A run in which the index request itself fails. -/
def envIndexFail : Env :=
  ⟨⟨true, true, true, true, true, false, true, true, true, true, true⟩, docSample⟩

/-! Resolver lemmas. -/

theorem dropLit_eq_some :
    ∀ {p s r : List Char}, dropLit p s = some r → s = p ++ r := by
  intro p
  induction p with
  | nil =>
    intro s r h
    simp [dropLit] at h
    simp [h]
  | cons a ps ih =>
    intro s r h
    cases s with
    | nil => simp [dropLit] at h
    | cons b ss =>
      simp only [dropLit] at h
      split at h
      · next hab =>
        have hb : a = b := by simpa using hab
        simpa [hb] using congrArg (b :: ·) (ih h)
      · exact absurd h (by simp)

theorem dropLit_append (p r : List Char) : dropLit p (p ++ r) = some r := by
  induction p with
  | nil => rfl
  | cons a ps ih => simpa [dropLit] using ih

theorem takeRun_eq (s : List Char) : s = (takeRun s).1 ++ (takeRun s).2 := by
  induction s with
  | nil => rfl
  | cons c cs ih =>
    cases h : isTokenChar c with
    | true => simpa [takeRun, h] using ih
    | false => simp [takeRun, h]

theorem takeRun_all (s : List Char) : (takeRun s).1.all isTokenChar = true := by
  induction s with
  | nil => rfl
  | cons c cs ih =>
    cases h : isTokenChar c with
    | true => simpa [takeRun, h] using ih
    | false => simp [takeRun, h]

theorem takeRun_exact (tok : List Char) (c : Char) (tl : List Char)
    (h1 : tok.all isTokenChar = true) (h2 : isTokenChar c = false) :
    takeRun (tok ++ c :: tl) = (tok, c :: tl) := by
  induction tok with
  | nil => simp [takeRun, h2]
  | cons a as ih =>
    simp only [List.all_cons, Bool.and_eq_true] at h1
    simp [takeRun, h1.1, ih h1.2]

theorem matchHere_nil : matchHere [] = none := rfl

theorem matchHere_eq_some {s g : List Char} (h : matchHere s = some g) :
    ∃ tok post, s = hrefMark ++ (tok ++ '/' :: '"' :: post) ∧
      tok.all isTokenChar = true ∧ 40 ≤ tok.length ∧ g = tok ++ ['/'] := by
  cases hd : dropLit hrefMark s with
  | none => simp [matchHere, hd] at h
  | some r =>
    simp only [matchHere, hd] at h
    split at h
    · next hlen =>
      split at h
      · next tl hpost =>
        refine ⟨(takeRun r).1, tl, ?_, takeRun_all r, hlen, by simpa using h.symm⟩
        have hr : r = (takeRun r).1 ++ '/' :: '"' :: tl := by
          conv_lhs => rw [takeRun_eq r]
          rw [hpost]
        rw [dropLit_eq_some hd]
        exact congrArg (hrefMark ++ ·) hr
      · simp at h
    · simp at h

theorem matchHere_append (tok post : List Char) (h1 : tok.all isTokenChar = true)
    (h2 : 40 ≤ tok.length) :
    matchHere (hrefMark ++ (tok ++ '/' :: '"' :: post)) = some (tok ++ ['/']) := by
  simp only [matchHere, dropLit_append]
  rw [takeRun_exact tok '/' ('"' :: post) h1 (by decide)]
  simp [h2]

theorem firstMatch_isSome_of_matchHere :
    ∀ {doc : List Char} {n : Nat} {g : List Char},
      matchHere (doc.drop n) = some g → (firstMatch doc).isSome = true := by
  intro doc
  induction doc with
  | nil =>
    intro n g h
    rw [List.drop_nil, matchHere_nil] at h
    simp at h
  | cons c cs ih =>
    intro n g h
    cases hm : matchHere (c :: cs) with
    | some g' => simp [firstMatch, hm]
    | none =>
      cases n with
      | zero => rw [List.drop_zero] at h; rw [hm] at h; exact absurd h (by simp)
      | succ m =>
        rw [List.drop_succ_cons] at h
        simpa [firstMatch, hm] using ih h

theorem firstMatch_spec :
    ∀ {doc g : List Char}, firstMatch doc = some g →
      ∃ n, matchHere (doc.drop n) = some g ∧
        ∀ m, m < n → matchHere (doc.drop m) = none := by
  intro doc
  induction doc with
  | nil => intro g h; simp [firstMatch] at h
  | cons c cs ih =>
    intro g h
    cases hm : matchHere (c :: cs) with
    | some g' =>
      have hg : g' = g := by simpa [firstMatch, hm] using h
      exact ⟨0, by simpa [hg] using hm, by omega⟩
    | none =>
      have h' : firstMatch cs = some g := by simpa [firstMatch, hm] using h
      obtain ⟨n, hn, hmin⟩ := ih h'
      refine ⟨n + 1, by simpa using hn, ?_⟩
      intro m hlt
      cases m with
      | zero => simpa using hm
      | succ m' => simpa using hmin m' (by omega)

/-! Core facts about the update flow, proved by exhausting the finite
operation oracle. -/

set_option maxRecDepth 8000

theorem stop_and_gate_core : ∀ (s a ra rs rr i dl ex ul ch st fo : Bool),
    checkPrec stopDone mutatesPayload false
      (mainFrom ⟨s, a, ra, rs, rr, i, dl, ex, ul, ch, st⟩ fo).1 = true ∧
    checkPrec startGate isStart false
      (mainFrom ⟨s, a, ra, rs, rr, i, dl, ex, ul, ch, st⟩ fo).1 = true := by
  decide

theorem fetch_fail_core : ∀ (s a ra rs rr i dl ex ul ch st fo : Bool),
    Event.download false ∈ (mainFrom ⟨s, a, ra, rs, rr, i, dl, ex, ul, ch, st⟩ fo).1 →
    (mainFrom ⟨s, a, ra, rs, rr, i, dl, ex, ul, ch, st⟩ fo).1.countP isStart = 1 ∧
    (mainFrom ⟨s, a, ra, rs, rr, i, dl, ex, ul, ch, st⟩ fo).1.countP isRecStart = 1 ∧
    (mainFrom ⟨s, a, ra, rs, rr, i, dl, ex, ul, ch, st⟩ fo).2 = 1 := by
  decide

theorem success_calls_core : ∀ (s a ra rs rr i dl ex ul ch st fo : Bool),
    Event.outcome true ∈ (mainFrom ⟨s, a, ra, rs, rr, i, dl, ex, ul, ch, st⟩ fo).1 →
    svcCalls (mainFrom ⟨s, a, ra, rs, rr, i, dl, ex, ul, ch, st⟩ fo).1 =
      [SvcCall.stop, SvcCall.start] := by
  decide

theorem exit_code_core : ∀ (s a ra rs rr i dl ex ul ch st fo : Bool),
    (mainFrom ⟨s, a, ra, rs, rr, i, dl, ex, ul, ch, st⟩ fo).2 = 0 ↔
      (Event.outcome true ∈ (mainFrom ⟨s, a, ra, rs, rr, i, dl, ex, ul, ch, st⟩ fo).1 ∨
       Event.rmDir false ∈ (mainFrom ⟨s, a, ra, rs, rr, i, dl, ex, ul, ch, st⟩ fo).1 ∨
       Event.rmFile false ∈ (mainFrom ⟨s, a, ra, rs, rr, i, dl, ex, ul, ch, st⟩ fo).1) := by
  decide

theorem outcome_core : ∀ (s a ra rs rr i dl ex ul ch st fo : Bool),
    (mainFrom ⟨s, a, ra, rs, rr, i, dl, ex, ul, ch, st⟩ fo).1.countP isOutcome =
      (if (mainFrom ⟨s, a, ra, rs, rr, i, dl, ex, ul, ch, st⟩ fo).2 = 0 ∧
          Event.rmDir false ∉ (mainFrom ⟨s, a, ra, rs, rr, i, dl, ex, ul, ch, st⟩ fo).1 ∧
          Event.rmFile false ∉ (mainFrom ⟨s, a, ra, rs, rr, i, dl, ex, ul, ch, st⟩ fo).1
       then 1 else 0) := by
  decide

theorem archive_core : ∀ (s a ra rs rr i dl ex ul ch st fo : Bool),
    checkPrec extractDone isUnlink false
      (mainFrom ⟨s, a, ra, rs, rr, i, dl, ex, ul, ch, st⟩ fo).1 = true ∧
    (Event.extract false ∈ (mainFrom ⟨s, a, ra, rs, rr, i, dl, ex, ul, ch, st⟩ fo).1 →
      (mainFrom ⟨s, a, ra, rs, rr, i, dl, ex, ul, ch, st⟩ fo).1.countP isUnlink = 0) := by
  decide

theorem resolution_fail_core : ∀ (s a ra rs rr i dl ex ul ch st fo : Bool),
    (Event.httpIndex false ∈ (mainFrom ⟨s, a, ra, rs, rr, i, dl, ex, ul, ch, st⟩ fo).1 ∨
     Event.matchBuild false ∈ (mainFrom ⟨s, a, ra, rs, rr, i, dl, ex, ul, ch, st⟩ fo).1) →
    (mainFrom ⟨s, a, ra, rs, rr, i, dl, ex, ul, ch, st⟩ fo).1.countP isStart = 1 ∧
    (mainFrom ⟨s, a, ra, rs, rr, i, dl, ex, ul, ch, st⟩ fo).1.countP isRecStart = 1 ∧
    (mainFrom ⟨s, a, ra, rs, rr, i, dl, ex, ul, ch, st⟩ fo).2 = 1 := by
  decide

/-! The claims. -/

/-- Claim C1: in every run of the update flow the managed service is never
running against a half-installed payload: every payload mutation (removal
of the directory tree or launcher entry point, or extraction) is strictly
preceded by a completed service stop, and every service start is strictly
preceded either by a completed ownership fix or by a failure that put the
run on the recovery path. -/
theorem service_stopped_while_payload_mutates (env : Env) :
    checkPrec stopDone mutatesPayload false (updateMain env).1 = true ∧
    checkPrec startGate isStart false (updateMain env).1 = true := by
  obtain ⟨⟨s, a, ra, rs, rr, i, dl, ex, ul, ch, st⟩, doc⟩ := env
  exact stop_and_gate_core s a ra rs rr i dl ex ul ch st (firstMatch doc).isSome

/-- Claim C2, evidence of the code bug: in a run where the fetch succeeds
and extraction fails, the script exits with code 1 from inside `run`
without ever attempting a service start — the catch-block recovery
(whose own log message promises a restart after a failed extraction) is
unreachable for extraction failures. -/
theorem extract_failure_exits_without_restart :
    Event.extract false ∈ (updateMain envExtractFail).1 ∧
    Event.download true ∈ (updateMain envExtractFail).1 ∧
    (updateMain envExtractFail).1.countP isStart = 0 ∧
    (updateMain envExtractFail).2 = 1 := by decide

/-- Claim C3: in every run whose archive download fails, exactly one
service start is attempted, it is the recovery start, and the process
exits with code 1 whether or not that restart succeeds. -/
theorem fetch_failure_single_recovery_start (env : Env)
    (h : Event.download false ∈ (updateMain env).1) :
    (updateMain env).1.countP isStart = 1 ∧
    (updateMain env).1.countP isRecStart = 1 ∧
    (updateMain env).2 = 1 := by
  obtain ⟨⟨s, a, ra, rs, rr, i, dl, ex, ul, ch, st⟩, doc⟩ := env
  exact fetch_fail_core s a ra rs rr i dl ex ul ch st (firstMatch doc).isSome h

/-- Witness for claim C3 at a concrete failing-download run. -/
theorem fetch_failure_single_recovery_start_case :
    (updateMain envFetchFail).1.countP isStart = 1 ∧
    (updateMain envFetchFail).1.countP isRecStart = 1 ∧
    (updateMain envFetchFail).2 = 1 :=
  fetch_failure_single_recovery_start envFetchFail (by decide)

/-- Claim C4: every run that completes successfully (reaches the success
report) performs exactly the service-controller call sequence
stop-then-start. -/
theorem successful_run_service_calls (env : Env)
    (h : Event.outcome true ∈ (updateMain env).1) :
    svcCalls (updateMain env).1 = [SvcCall.stop, SvcCall.start] := by
  obtain ⟨⟨s, a, ra, rs, rr, i, dl, ex, ul, ch, st⟩, doc⟩ := env
  exact success_calls_core s a ra rs rr i dl ex ul ch st (firstMatch doc).isSome h

/-- Witness for claim C4 at the all-successful run. -/
theorem successful_run_service_calls_case :
    svcCalls (updateMain envAllOk).1 = [SvcCall.stop, SvcCall.start] :=
  successful_run_service_calls envAllOk (by decide)

/-- Claim C5, counterexample: a run in which removing the stale payload
directory throws is a fatal error (the run stops, no success report is
produced), yet the process exits with code 0 because the rejected promise
is handled by a top-level catch that merely prints the error. -/
theorem clear_failure_exits_with_code_zero :
    Event.rmDir false ∈ (updateMain envClearFail).1 ∧
    Event.outcome true ∉ (updateMain envClearFail).1 ∧
    (updateMain envClearFail).2 = 0 := by decide

/-- Claim C5 as amended: the exit code is 0 exactly when the run either
completed successfully or died on a payload-clearing filesystem failure;
every other fatal error (service stop, resolution, fetch, extraction,
archive cleanup, ownership fix, service start) exits non-zero. -/
theorem exit_zero_iff_success_or_clearing_failure (env : Env) :
    (updateMain env).2 = 0 ↔
      (Event.outcome true ∈ (updateMain env).1 ∨
       Event.rmDir false ∈ (updateMain env).1 ∨
       Event.rmFile false ∈ (updateMain env).1) := by
  obtain ⟨⟨s, a, ra, rs, rr, i, dl, ex, ul, ch, st⟩, doc⟩ := env
  exact exit_code_core s a ra rs rr i dl ex ul ch st (firstMatch doc).isSome

/-- Claim C6, counterexample: a run that fails (fetch failure, exit
code 1) produces no outcome report at all, not exactly one. -/
theorem failed_run_produces_no_outcome :
    (updateMain envFetchFail).2 = 1 ∧
    (updateMain envFetchFail).1.countP isOutcome = 0 := by decide

/-- Claim C6 as amended: exactly one outcome report is produced when the
run completes successfully, and none on any failed run. -/
theorem outcome_report_exactly_on_success (env : Env) :
    (updateMain env).1.countP isOutcome =
      (if (updateMain env).2 = 0 ∧
          Event.rmDir false ∉ (updateMain env).1 ∧
          Event.rmFile false ∉ (updateMain env).1
       then 1 else 0) := by
  obtain ⟨⟨s, a, ra, rs, rr, i, dl, ex, ul, ch, st⟩, doc⟩ := env
  exact outcome_core s a ra rs rr i dl ex ul ch st (firstMatch doc).isSome

/-- Claim C7, counterexample: on a document whose only candidate is a run
of 40 hyphens the source resolver succeeds and returns that token, although
the token is not lowercase hexadecimal and the resolver following the
spec's words finds nothing and must fail. -/
theorem resolver_accepts_hyphen_token :
    firstMatch docHyphen = some (List.replicate 40 '-' ++ ['/']) ∧
    (List.replicate 40 '-').all isLowerHex = false ∧
    specResolveHex docHyphen = none := by decide

/-- Claim C7 as amended: whenever the resolver succeeds it returns the
token of the leftmost occurrence of `href="` followed by at least 40
characters of the class 0-9, a-f, hyphen and then a slash and closing
quote, with every earlier position failing to match, and the download URL
is the fixed index URL, the token with its slash, and the fixed archive
name; conversely it succeeds whenever such an occurrence exists, hence
fails only when no such token is present. -/
theorem resolver_first_token_characterization (doc : List Char) :
    (∀ g, firstMatch doc = some g →
      ∃ n tok post, doc.drop n = hrefMark ++ (tok ++ '/' :: '"' :: post) ∧
        tok.all isTokenChar = true ∧ 40 ≤ tok.length ∧ g = tok ++ ['/'] ∧
        (∀ m, m < n → matchHere (doc.drop m) = none) ∧
        resolveUrl doc = some (latestUrlChars ++ g ++ archiveName)) ∧
    (∀ pre tok post, doc = pre ++ (hrefMark ++ (tok ++ '/' :: '"' :: post)) →
      tok.all isTokenChar = true → 40 ≤ tok.length →
      (firstMatch doc).isSome = true) := by
  constructor
  · intro g hg
    obtain ⟨n, hn, hmin⟩ := firstMatch_spec hg
    obtain ⟨tok, post, hs, hall, hlen, hgeq⟩ := matchHere_eq_some hn
    exact ⟨n, tok, post, hs, hall, hlen, hgeq, hmin, by simp [resolveUrl, hg]⟩
  · intro pre tok post hdoc hall hlen
    have hm : matchHere (doc.drop pre.length) = some (tok ++ ['/']) := by
      rw [hdoc, List.drop_left]
      exact matchHere_append tok post hall hlen
    exact firstMatch_isSome_of_matchHere hm

/-- Witness for the amended claim C7 at the sample document. -/
theorem resolver_first_token_characterization_case :
    (firstMatch docSample).isSome = true :=
  (resolver_first_token_characterization docSample).2
    [] (List.replicate 40 'a') [] (by decide) (by decide) (by decide)

/-- Claim C8: clearing the stale payload is a no-op, not an error, when
neither the payload directory tree nor the launcher entry point exists,
and it fails only when one of them exists and the corresponding
filesystem removal fails. -/
theorem clear_stale_noop_and_failure_source :
    ∀ (a ra rs rr : Bool),
      (a = false → rs = false → clearStale a ra rs rr = ([], false)) ∧
      ((clearStale a ra rs rr).2 = true →
        (a = true ∧ ra = false) ∨ (rs = true ∧ rr = false)) := by
  decide

/-- Witness for claim C8: the fresh-install no-op and a directory-removal
failure as the failure source. -/
theorem clear_stale_noop_and_failure_source_case :
    clearStale false true false true = ([], false) ∧
    ((true = true ∧ false = false) ∨ (false = true ∧ true = false)) :=
  ⟨(clear_stale_noop_and_failure_source false true false true).1 rfl rfl,
   (clear_stale_noop_and_failure_source true false false true).2 (by decide)⟩

/-- Claim C9: in every run, any deletion attempt on the downloaded archive
is strictly preceded by a successful extraction, and a run whose
extraction fails never attempts to delete the archive. -/
theorem archive_kept_until_extraction_succeeds (env : Env) :
    checkPrec extractDone isUnlink false (updateMain env).1 = true ∧
    (Event.extract false ∈ (updateMain env).1 →
      (updateMain env).1.countP isUnlink = 0) := by
  obtain ⟨⟨s, a, ra, rs, rr, i, dl, ex, ul, ch, st⟩, doc⟩ := env
  exact archive_core s a ra rs rr i dl ex ul ch st (firstMatch doc).isSome

/-- Witness for claim C9 at a concrete failing-extraction run. -/
theorem archive_kept_until_extraction_succeeds_case :
    (updateMain envExtractFail).1.countP isUnlink = 0 :=
  (archive_kept_until_extraction_succeeds envExtractFail).2 (by decide)

/-- Claim C10: every run in which version resolution fails — the index
request fails or the index document contains no matching build token —
takes the fetch-failure recovery path: exactly one service start is
attempted (the recovery one) and the process exits with code 1. -/
theorem resolution_failure_takes_recovery_path (env : Env)
    (h : Event.httpIndex false ∈ (updateMain env).1 ∨
         Event.matchBuild false ∈ (updateMain env).1) :
    (updateMain env).1.countP isStart = 1 ∧
    (updateMain env).1.countP isRecStart = 1 ∧
    (updateMain env).2 = 1 := by
  obtain ⟨⟨s, a, ra, rs, rr, i, dl, ex, ul, ch, st⟩, doc⟩ := env
  exact resolution_fail_core s a ra rs rr i dl ex ul ch st (firstMatch doc).isSome h

/-- Witness for claim C10 at a concrete failing-index run. -/
theorem resolution_failure_takes_recovery_path_case :
    (updateMain envIndexFail).1.countP isStart = 1 ∧
    (updateMain envIndexFail).1.countP isRecStart = 1 ∧
    (updateMain envIndexFail).2 = 1 :=
  resolution_failure_takes_recovery_path envIndexFail (Or.inl (by decide))

end FivemUpdate
